import Mathlib

/-
Shallow embedding of src/main.py (FastAPI + pydantic v2 product CRUD service).

The validation layer is the pydantic model ProductoIn; the store is the
module-level dict DB keyed by UUID.  Pydantic v2 semantics that matter here:

* Field constraints (min_length, max_length, gt, max_digits, decimal_places)
  run during core validation, BEFORE any after-mode field_validator of the
  same field (validar_nombre, normalizar_precio, validar_categorias are all
  default after-mode validators).
* strip_whitespace is not a recognised keyword of pydantic.Field in v2 (it
  exists only on StringConstraints / constr / model config); an unrecognised
  Field keyword is routed to json_schema_extra with a deprecation warning and
  has no effect on validation, so the nombre field is never trimmed: the
  length bounds see the raw string and the raw string is stored.
* decimal_places counts the fractional digits of the incoming Decimal
  (trailing zeros included, via the exponent of as_tuple), so a value such as
  10.005 fails decimal_places=2 before normalizar_precio can round it.

uuid4 draws are modelled as identifiers supplied by the environment; the dict
DB is modelled as an association list with Python-dict update semantics
(overwrite in place when the key is present, append when absent).
-/

deriving instance DecidableEq for Except

namespace ProductosAPI

/-- The fixed category catalog CATALOGO_CATEGORIAS of src/main.py, a Python
set literal; it is modelled as the list of its elements, membership being the
only operation the code performs on it. -/
def CATALOGO_CATEGORIAS : List String :=
  ["granos", "frutas", "hortalizas", "lacteos", "carnes",
   "procesados", "organicos", "ofertas", "semillas", "bebidas"]

/-- A decimal number coeff / 10 ^ scale: the embedding of the Python Decimal
values arriving in the precio field.  scale is the negated exponent of
Decimal.as_tuple, so trailing zeros are significant: 10.00 is ⟨1000, 2⟩ and
10.005 is ⟨10005, 3⟩; a decimal with a nonnegative exponent is represented
with scale 0 and the multiplied-out coefficient. -/
structure Dec where
  coeff : Int
  scale : Nat
deriving DecidableEq

/-- Decimal digit count of a natural number, with numDigits 0 = 1, matching
the length of Decimal.as_tuple().digits. -/
def numDigits (n : Nat) : Nat := (Nat.toDigits 10 n).length

/-- Python str.isspace for the characters that occur in ASCII text (Python
also strips some further Unicode whitespace, which no input here contains). -/
def esEspacio (c : Char) : Bool :=
  c == ' ' || c == '\t' || c == '\n' || c == '\r' || c == '\x0b' || c == '\x0c'

/-- Python str.strip(): drop leading and trailing whitespace. -/
def strip (s : String) : String :=
  ⟨((s.data.dropWhile esEspacio).reverse.dropWhile esEspacio).reverse⟩

/-- Python str.lower() on one character (ASCII case; Python also lowercases
further Unicode letters, which no input here contains). -/
def charLower (c : Char) : Char :=
  if 65 ≤ c.toNat ∧ c.toNat ≤ 90 then Char.ofNat (c.toNat + 32) else c

/-- Python str.lower(). -/
def lower (s : String) : String := ⟨s.data.map charLower⟩

/-- Fractional digit count as pydantic computes it for the decimal_places
constraint: the absolute exponent when the exponent is negative, else 0. -/
def Dec.decimalPlaces (d : Dec) : Nat := d.scale

/-- Total digit count as pydantic computes it for the max_digits constraint:
max of the coefficient digit count and the fractional digit count when the
exponent is negative. -/
def Dec.digitsCount (d : Dec) : Nat :=
  if d.scale = 0 then numDigits d.coeff.natAbs
  else max (numDigits d.coeff.natAbs) d.scale

/-- The rational value of a decimal. -/
def Dec.val (d : Dec) : ℚ := (d.coeff : ℚ) / (10 : ℚ) ^ d.scale

/-- Division of n by p rounded to the nearest integer, a remainder of at
least one half (in absolute value) rounding away from zero: the ROUND_HALF_UP
rule of Python decimal. -/
def roundHalfUpAt (n : Int) (p : Nat) : Int :=
  if p ≤ 2 * (n.tmod (p : Int)).natAbs then
    (if 0 ≤ n then n.tdiv (p : Int) + 1 else n.tdiv (p : Int) - 1)
  else n.tdiv (p : Int)

/-- v.quantize(Decimal("0.01"), rounding=ROUND_HALF_UP), the body of
ProductoIn.normalizar_precio: the result always carries scale 2. -/
def quantize2 (d : Dec) : Dec :=
  if d.scale ≤ 2 then ⟨d.coeff * (10 : Int) ^ (2 - d.scale), 2⟩
  else ⟨roundHalfUpAt d.coeff (10 ^ (d.scale - 2)), 2⟩

/-- Validation failures: one constructor per distinguishable pydantic error
raised while validating a ProductoIn body.  The unknown-categories error
carries the offending values, as the f-string in validar_categorias does. -/
inductive ValErr where
  | nombreCorto
  | nombreLargo
  | nombreVacio
  | precioNoPositivo
  | precioDigitos
  | precioDecimales
  | categoriasPocas
  | categoriasMuchas
  | categoriasSinValidas
  | categoriasRepetidas
  | categoriasDesconocidas (cs : List String)
deriving DecidableEq

/-- The nombre field: Field(min_length=3, max_length=60, strip_whitespace=True)
followed by validar_nombre.  strip_whitespace has no effect under pydantic v2
(see the header comment), so the length bounds apply to the raw string;
validar_nombre then rejects a string that strips to empty and returns the raw
(untrimmed) string. -/
def validarNombreField (v : String) : Except ValErr String :=
  if v.length < 3 then .error .nombreCorto
  else if 60 < v.length then .error .nombreLargo
  else if strip v = "" then .error .nombreVacio
  else .ok v

/-- The precio field: Field(gt=0, max_digits=10, decimal_places=2) followed by
normalizar_precio.  The Field constraints run before the after-mode validator,
so a value with more than 2 fractional digits is rejected before
normalizar_precio ever quantizes it. -/
def validarPrecioField (d : Dec) : Except ValErr Dec :=
  if d.coeff ≤ 0 then .error .precioNoPositivo
  else if 10 < d.digitsCount then .error .precioDigitos
  else if 2 < d.decimalPlaces then .error .precioDecimales
  else .ok (quantize2 d)

/-- The list comprehension in validar_categorias: keep the entries that are
non-empty and do not strip to empty, and map each kept entry to its stripped
lowercased form. -/
def normalizar (v : List String) : List String :=
  (v.filter (fun c => !(c == "") && !(strip c == ""))).map (fun c => lower (strip c))

/-- The desconocidas comprehension in validar_categorias: the normalized
entries that are not members of the catalog. -/
def desconocidas (v : List String) : List String :=
  (normalizar v).filter (fun c => !(CATALOGO_CATEGORIAS.contains c))

/-- The categorias field: Field(min_length=1, max_length=10) on the raw list
(checked by pydantic before the after-mode validator runs), followed by
validar_categorias: normalize, reject if nothing valid remains, reject
duplicates (len(set) comparison, modelled with List.dedup), reject unknown
entries listing all of them, otherwise return the normalized list. -/
def validarCategoriasField (v : List String) : Except ValErr (List String) :=
  if v.length < 1 then .error .categoriasPocas
  else if 10 < v.length then .error .categoriasMuchas
  else if (normalizar v).isEmpty then .error .categoriasSinValidas
  else if (normalizar v).length ≠ (normalizar v).dedup.length then
    .error .categoriasRepetidas
  else if !(desconocidas v).isEmpty then
    .error (.categoriasDesconocidas (desconocidas v))
  else .ok (normalizar v)

/-- A raw ProductoIn request body, before validation. -/
structure RawProducto where
  nombre : String
  precio : Dec
  categorias : List String
deriving DecidableEq

/-- A validated ProductoIn value. -/
structure ProductoIn where
  nombre : String
  precio : Dec
  categorias : List String
deriving DecidableEq

/-- Whole-model validation of a ProductoIn body: every field runs its Field
constraints and then its field_validator; the first failing field's error is
surfaced (pydantic reports all failing fields, but which fields fail and the
per-field error are as here). -/
def validate (r : RawProducto) : Except ValErr ProductoIn :=
  match validarNombreField r.nombre with
  | .error e => .error e
  | .ok n =>
    match validarPrecioField r.precio with
    | .error e => .error e
    | .ok p =>
      match validarCategoriasField r.categorias with
      | .error e => .error e
      | .ok c => .ok ⟨n, p, c⟩

/-- uuid4 results, supplied by the environment; modelled as naturals. -/
abbrev UUID := Nat

/-- A stored product: ProductoOut is ProductoIn plus the id. -/
structure ProductoOut where
  id : UUID
  nombre : String
  precio : Dec
  categorias : List String
deriving DecidableEq

/-- The dict DB, modelled as an association list in insertion order. -/
abbrev Store := List (UUID × ProductoOut)

/-- DB.get(k): first entry whose key is k, if any. -/
def dictGet (db : Store) (k : UUID) : Option ProductoOut :=
  match db with
  | [] => none
  | e :: rest => if e.1 == k then some e.2 else dictGet rest k

/-- k in DB. -/
def dictContains (db : Store) (k : UUID) : Bool :=
  match db with
  | [] => false
  | e :: rest => e.1 == k || dictContains rest k

/-- DB assignment with Python dict semantics: overwrite in place when the key
is present, append at the end when absent. -/
def dictSet (db : Store) (k : UUID) (v : ProductoOut) : Store :=
  if dictContains db k then db.map (fun e => if e.1 == k then (k, v) else e)
  else db ++ [(k, v)]

/-- del DB k: drop the entry with key k. -/
def dictDelete (db : Store) (k : UUID) : Store :=
  db.filter (fun e => !(e.1 == k))

/-- Store-level failure: HTTPException 404. -/
inductive ApiErr where
  | notFound
deriving DecidableEq

/-- POST /productos body (after validation): build ProductoOut with the fresh
uuid4 value u, store it under its id, return it. -/
def crear_producto (u : UUID) (prod : ProductoIn) (db : Store) :
    ProductoOut × Store :=
  let nuevo : ProductoOut := ⟨u, prod.nombre, prod.precio, prod.categorias⟩
  (nuevo, dictSet db nuevo.id nuevo)

/-- GET /productos/{producto_id}: DB.get, 404 when missing.  (A present
pydantic model is always truthy, so "if not prod" is exactly the None test.) -/
def obtener_producto (k : UUID) (db : Store) : Except ApiErr ProductoOut :=
  match dictGet db k with
  | none => .error .notFound
  | some p => .ok p

/-- PUT /productos/{producto_id} body (after validation): 404 when the id is
absent, otherwise overwrite the entry with a ProductoOut at the same id. -/
def actualizar_producto (k : UUID) (prod : ProductoIn) (db : Store) :
    Except ApiErr ProductoOut × Store :=
  if dictContains db k then
    let actualizado : ProductoOut := ⟨k, prod.nombre, prod.precio, prod.categorias⟩
    (.ok actualizado, dictSet db k actualizado)
  else (.error .notFound, db)

/-- DELETE /productos/{producto_id}: 404 when the id is absent, otherwise
remove the entry. -/
def eliminar_producto (k : UUID) (db : Store) : Except ApiErr Unit × Store :=
  if dictContains db k then (.ok (), dictDelete db k)
  else (.error .notFound, db)

/-- Combined error of the PUT endpoint: 422 body validation or 404. -/
inductive PutErr where
  | validacion (e : ValErr)
  | noEncontrado
deriving DecidableEq

/-- POST /productos seen from the raw body: FastAPI validates the body before
the handler runs, so on validation failure the handler body (and hence any DB
mutation) never executes. -/
def postProductos (u : UUID) (raw : RawProducto) (db : Store) :
    Except ValErr ProductoOut × Store :=
  match validate raw with
  | .error e => (.error e, db)
  | .ok prod =>
    let res := crear_producto u prod db
    (.ok res.1, res.2)

/-- PUT /productos/{k} seen from the raw body: body validation precedes the
handler, which then checks id presence. -/
def putProductos (k : UUID) (raw : RawProducto) (db : Store) :
    Except PutErr ProductoOut × Store :=
  match validate raw with
  | .error e => (.error (.validacion e), db)
  | .ok prod =>
    match actualizar_producto k prod db with
    | (.error _, db2) => (.error .noEncontrado, db2)
    | (.ok o, db2) => (.ok o, db2)

/-- A sequence of POST calls: each op supplies the uuid4 draw and the
validated body; returns the list of responses and the final store. -/
def runInserts (ops : List (UUID × ProductoIn)) (db : Store) :
    List ProductoOut × Store :=
  match ops with
  | [] => ([], db)
  | (u, p) :: rest =>
    let res := crear_producto u p db
    let siguiente := runInserts rest res.2
    (res.1 :: siguiente.1, siguiente.2)

/-- The store's identity invariant: no two entries share an id. -/
abbrev nodupKeys (db : Store) : Prop := (db.map Prod.fst).Nodup

/-! ### Lemmas about the validator -/

theorem isEmpty_eq_true_iff {α : Type} (l : List α) : l.isEmpty = true ↔ l = [] := by
  cases l <;> simp

theorem nodup_iff_dedup_length (l : List String) :
    l.Nodup ↔ l.length = l.dedup.length := by
  constructor
  · intro h
    rw [List.dedup_eq_self.mpr h]
  · intro h
    exact List.dedup_eq_self.mp ((List.dedup_sublist l).eq_of_length h.symm)

/-- Every catalog label is its own stripped, lowercased form. -/
theorem catalogo_fijo : ∀ c ∈ CATALOGO_CATEGORIAS, strip c = c ∧ lower c = c := by
  decide

theorem quantize2_scale (d : Dec) : (quantize2 d).scale = 2 := by
  unfold quantize2
  split <;> rfl

theorem validarNombre_ok (v n : String) (h : validarNombreField v = .ok n) :
    n = v := by
  unfold validarNombreField at h
  split at h
  · exact Except.noConfusion h
  split at h
  · exact Except.noConfusion h
  split at h
  · exact Except.noConfusion h
  exact (Except.ok.inj h).symm

theorem validarPrecio_ok (d p : Dec) (h : validarPrecioField d = .ok p) :
    p = quantize2 d := by
  unfold validarPrecioField at h
  split at h
  · exact Except.noConfusion h
  split at h
  · exact Except.noConfusion h
  split at h
  · exact Except.noConfusion h
  exact (Except.ok.inj h).symm

theorem validarCategorias_ok (v cs : List String)
    (h : validarCategoriasField v = .ok cs) :
    cs = normalizar v ∧ cs.Nodup ∧ ∀ c ∈ cs, c ∈ CATALOGO_CATEGORIAS := by
  unfold validarCategoriasField at h
  split at h
  · exact Except.noConfusion h
  split at h
  · exact Except.noConfusion h
  split at h
  · exact Except.noConfusion h
  split at h
  · exact Except.noConfusion h
  split at h
  · exact Except.noConfusion h
  rename_i h1 h2 h3 hdup hdesc
  have hcs : cs = normalizar v := (Except.ok.inj h).symm
  subst hcs
  refine ⟨rfl, (nodup_iff_dedup_length _).mpr (not_ne_iff.mp hdup), ?_⟩
  intro c hc
  have hdescE : (desconocidas v).isEmpty = true := by simpa using hdesc
  have hnil : desconocidas v = [] := (isEmpty_eq_true_iff _).mp hdescE
  have hall := List.filter_eq_nil_iff.mp hnil c hc
  simpa using hall

theorem validate_ok (r : RawProducto) (p : ProductoIn) (h : validate r = .ok p) :
    validarNombreField r.nombre = .ok p.nombre ∧
    validarPrecioField r.precio = .ok p.precio ∧
    validarCategoriasField r.categorias = .ok p.categorias := by
  unfold validate at h
  cases hn : validarNombreField r.nombre with
  | error e =>
    rw [hn] at h
    exact Except.noConfusion h
  | ok n =>
    rw [hn] at h
    cases hp : validarPrecioField r.precio with
    | error e =>
      rw [hp] at h
      exact Except.noConfusion h
    | ok pr =>
      rw [hp] at h
      cases hc : validarCategoriasField r.categorias with
      | error e =>
        rw [hc] at h
        exact Except.noConfusion h
      | ok cs =>
        rw [hc] at h
        have hps : p = ⟨n, pr, cs⟩ := (Except.ok.inj h).symm
        subst hps
        exact ⟨rfl, rfl, rfl⟩

theorem cat_repetidas (v : List String) (h1 : 1 ≤ v.length) (h2 : v.length ≤ 10)
    (h3 : ¬ (normalizar v).Nodup) :
    validarCategoriasField v = .error .categoriasRepetidas := by
  have hnil : normalizar v ≠ [] := by
    intro hn
    exact h3 (hn ▸ List.nodup_nil)
  have hdup : (normalizar v).length ≠ (normalizar v).dedup.length := by
    intro he
    exact h3 ((nodup_iff_dedup_length _).mpr he)
  unfold validarCategoriasField
  rw [if_neg (by omega), if_neg (by omega), if_neg (by simpa using hnil),
    if_pos hdup]

theorem cat_desconocidas (v : List String) (h1 : 1 ≤ v.length)
    (h2 : v.length ≤ 10) (h3 : (normalizar v).Nodup) (h4 : desconocidas v ≠ []) :
    validarCategoriasField v = .error (.categoriasDesconocidas (desconocidas v)) := by
  have hnil : normalizar v ≠ [] := by
    intro hn
    apply h4
    unfold desconocidas
    rw [hn]
    rfl
  unfold validarCategoriasField
  rw [if_neg (by omega), if_neg (by omega), if_neg (by simpa using hnil),
    if_neg (not_ne_iff.mpr ((nodup_iff_dedup_length _).mp h3)),
    if_pos (by simpa using h4)]

/-! ### The claims -/

/-- Claim C1 (refuted - code bug): the spec's rounding law says a price with
more than 2 fractional digits whose other fields are valid is accepted and
rounded half-up, 10.005 being stored as 10.01 and 10.004 as 10.00.  In the
code the decimal_places=2 Field constraint runs before the after-mode
validator normalizar_precio, so both 10.005 and 10.004 are rejected with a
decimal_places error and the rounding never happens; the quantize call in
normalizar_precio would by itself round exactly as the spec says, which shows
the constraint, not the rounding rule, is what blocks the spec's behavior. -/
theorem C1_precio_tres_decimales_rechazado :
    validate ⟨"Miel de abeja", ⟨10005, 3⟩, ["granos"]⟩ = .error .precioDecimales ∧
    validate ⟨"Miel de abeja", ⟨10004, 3⟩, ["granos"]⟩ = .error .precioDecimales ∧
    quantize2 ⟨10005, 3⟩ = ⟨1001, 2⟩ ∧
    quantize2 ⟨10004, 3⟩ = ⟨1000, 2⟩ := by
  decide

/-- Claim C2 (refuted - code bug): the spec says the name length bounds apply
after trimming surrounding whitespace and that the trimmed name is stored.
strip_whitespace=True is not a recognised pydantic v2 Field argument and
strips nothing, so the input "  a  " (raw length 5, trimmed length 1) is
accepted and stored untrimmed, where the spec demands rejection. -/
theorem C2_nombre_no_recortado :
    validate ⟨"  a  ", ⟨500, 2⟩, ["granos"]⟩ =
      .ok ⟨"  a  ", ⟨500, 2⟩, ["granos"]⟩ ∧
    (strip "  a  ").length = 1 := by
  decide

/-- Claim C3 (confirmed): the 1-to-10 bound is checked on the raw categories
list before normalization, a raw list of 0 or more than 10 entries being
rejected outright; each surviving entry is then stripped and lowercased,
entries that strip to empty are dropped, and if no normalized entry remains
validation fails with the no-valid-category error. -/
theorem C3_longitud_cruda_y_normalizacion (v : List String) :
    (v.length < 1 → validarCategoriasField v = .error .categoriasPocas) ∧
    (10 < v.length → validarCategoriasField v = .error .categoriasMuchas) ∧
    (1 ≤ v.length → v.length ≤ 10 → normalizar v = [] →
      validarCategoriasField v = .error .categoriasSinValidas) ∧
    (1 ≤ v.length → v.length ≤ 10 → normalizar v ≠ [] → (normalizar v).Nodup →
      desconocidas v = [] → validarCategoriasField v = .ok (normalizar v)) := by
  refine ⟨?_, ?_, ?_, ?_⟩
  · intro h
    unfold validarCategoriasField
    rw [if_pos h]
  · intro h
    unfold validarCategoriasField
    rw [if_neg (by omega), if_pos h]
  · intro h1 h2 h3
    unfold validarCategoriasField
    rw [if_neg (by omega), if_neg (by omega), if_pos (by simpa using h3)]
  · intro h1 h2 h3 h4 h5
    unfold validarCategoriasField
    rw [if_neg (by omega), if_neg (by omega), if_neg (by simpa using h3),
      if_neg (not_ne_iff.mpr ((nodup_iff_dedup_length _).mp h4)),
      if_neg (by simp [h5])]

/-- Witness for C3: the raw pair of blank entries passes the raw length check
and is rejected for having no valid category, and a raw list of 11 entries is
rejected by the raw length bound even though normalization would deduplicate
it to a single entry. -/
theorem C3_witness :
    validarCategoriasField ["  ", ""] = .error .categoriasSinValidas ∧
    validarCategoriasField ["granos", "granos", "granos", "granos", "granos",
      "granos", "granos", "granos", "granos", "granos", "granos"] =
      .error .categoriasMuchas := by
  constructor
  · exact (C3_longitud_cruda_y_normalizacion ["  ", ""]).2.2.1
      (by decide) (by decide) (by decide)
  · exact (C3_longitud_cruda_y_normalizacion _).2.1 (by decide)

/-- Claim C5 (confirmed): when some normalized category is not in the
catalog (and the raw length bound holds), validation fails; the unknown
entries all appear in the reported list, and when the duplicate check does
not fire first the error is exactly the unknown-categories error carrying
every unrecognized entry. -/
theorem C5_desconocidas_listadas (v : List String)
    (h1 : 1 ≤ v.length) (h2 : v.length ≤ 10)
    (h3 : ∃ c ∈ normalizar v, c ∉ CATALOGO_CATEGORIAS) :
    (∃ e, validarCategoriasField v = .error e) ∧
    (∀ c ∈ normalizar v, c ∉ CATALOGO_CATEGORIAS → c ∈ desconocidas v) ∧
    ((normalizar v).Nodup →
      validarCategoriasField v =
        .error (.categoriasDesconocidas (desconocidas v))) := by
  obtain ⟨c0, hc0, hc0n⟩ := h3
  have hdne : desconocidas v ≠ [] := by
    intro hn
    have hmem : c0 ∈ desconocidas v := by
      unfold desconocidas
      simp [List.mem_filter, hc0, hc0n]
    rw [hn] at hmem
    exact absurd hmem (List.not_mem_nil c0)
  refine ⟨?_, ?_, ?_⟩
  · by_cases hnd : (normalizar v).Nodup
    · exact ⟨_, cat_desconocidas v h1 h2 hnd hdne⟩
    · exact ⟨_, cat_repetidas v h1 h2 hnd⟩
  · intro c hc hcn
    unfold desconocidas
    simp [List.mem_filter, hc, hcn]
  · intro hnd
    exact cat_desconocidas v h1 h2 hnd hdne

/-- Witness for C5: categories granos and marcianos yield the unknown-
categories error listing exactly marcianos. -/
theorem C5_witness :
    validarCategoriasField ["granos", "marcianos"] =
      .error (.categoriasDesconocidas ["marcianos"]) := by
  have h := (C5_desconocidas_listadas ["granos", "marcianos"]
    (by decide) (by decide) (by decide)).2.2 (by decide)
  have h2 : desconocidas ["granos", "marcianos"] = ["marcianos"] := by decide
  rw [h2] at h
  exact h

/-- Claim C6 (confirmed): a categories input whose entries are no longer
pairwise distinct after stripping and lowercasing fails with the
duplicate-category error. -/
theorem C6_duplicadas_rechazadas (v : List String)
    (h1 : 1 ≤ v.length) (h2 : v.length ≤ 10) (h3 : ¬ (normalizar v).Nodup) :
    validarCategoriasField v = .error .categoriasRepetidas :=
  cat_repetidas v h1 h2 h3

/-- Witness for C6: granos and "Granos " both normalize to granos and the
input is rejected as duplicated. -/
theorem C6_witness :
    validarCategoriasField ["granos", "Granos "] = .error .categoriasRepetidas ∧
    normalizar ["granos", "Granos "] = ["granos", "granos"] := by
  constructor
  · exact C6_duplicadas_rechazadas ["granos", "Granos "]
      (by decide) (by decide) (by decide)
  · decide

/-- Claim C4 (confirmed): every accepted input is stored with a price of
exactly 2 fractional digits, and with categories that are stripped, lowercase,
pairwise distinct, and members of the fixed catalog. -/
theorem C4_normalizacion_almacenada (r : RawProducto) (p : ProductoIn)
    (h : validate r = .ok p) :
    p.precio.decimalPlaces = 2 ∧ p.categorias.Nodup ∧
    ∀ c ∈ p.categorias, c ∈ CATALOGO_CATEGORIAS ∧ strip c = c ∧ lower c = c := by
  obtain ⟨hn, hp, hc⟩ := validate_ok r p h
  have hpq := validarPrecio_ok r.precio p.precio hp
  obtain ⟨hcs, hnd, hmem⟩ := validarCategorias_ok r.categorias p.categorias hc
  refine ⟨?_, hnd, ?_⟩
  · rw [hpq]
    exact quantize2_scale r.precio
  · intro c hcmem
    have hm := hmem c hcmem
    exact ⟨hm, catalogo_fijo c hm⟩

/-- Witness for C4: the accepted body with mixed-case categories is stored
with a 2-decimal price and normalized catalog categories. -/
theorem C4_witness :
    (ProductoIn.mk "Miel de abeja" ⟨599, 2⟩
      ["organicos", "ofertas"]).precio.decimalPlaces = 2 ∧
    (ProductoIn.mk "Miel de abeja" ⟨599, 2⟩
      ["organicos", "ofertas"]).categorias.Nodup ∧
    ∀ c ∈ (ProductoIn.mk "Miel de abeja" ⟨599, 2⟩
      ["organicos", "ofertas"]).categorias,
      c ∈ CATALOGO_CATEGORIAS ∧ strip c = c ∧ lower c = c :=
  C4_normalizacion_almacenada
    ⟨"Miel de abeja", ⟨599, 2⟩, ["Organicos", "OFERTAS"]⟩
    ⟨"Miel de abeja", ⟨599, 2⟩, ["organicos", "ofertas"]⟩ (by decide)

/-! ### Lemmas about the store -/

theorem dictGet_append_absent (db l : Store) (k : UUID)
    (h : dictContains db k = false) : dictGet (db ++ l) k = dictGet l k := by
  induction db with
  | nil => rfl
  | cons e rest ih =>
    simp only [dictContains, Bool.or_eq_false_iff] at h
    simp only [List.cons_append, dictGet, h.1]
    simpa using ih h.2

theorem dictGet_none_of_not_contains (db : Store) (k : UUID)
    (h : dictContains db k = false) : dictGet db k = none := by
  induction db with
  | nil => rfl
  | cons e rest ih =>
    simp only [dictContains, Bool.or_eq_false_iff] at h
    simp only [dictGet, h.1]
    simpa using ih h.2

theorem dictGet_map_set (db : Store) (k : UUID) (w : ProductoOut)
    (h : dictContains db k = true) :
    dictGet (db.map (fun e => if e.1 == k then (k, w) else e)) k = some w := by
  induction db with
  | nil => exact Bool.noConfusion h
  | cons e rest ih =>
    simp only [dictContains, Bool.or_eq_true] at h
    cases he : (e.1 == k) with
    | true => simp [dictGet, he]
    | false =>
      have hrest : dictContains rest k = true := by
        rcases h with h | h
        · rw [he] at h
          exact Bool.noConfusion h
        · exact h
      simp only [List.map_cons, he, Bool.false_eq_true, if_false, dictGet]
      simpa [he] using ih hrest

theorem dictGet_dictSet_self (db : Store) (k : UUID) (w : ProductoOut) :
    dictGet (dictSet db k w) k = some w := by
  unfold dictSet
  cases hc : dictContains db k with
  | true =>
    rw [if_pos rfl]
    exact dictGet_map_set db k w hc
  | false =>
    rw [if_neg (by simp)]
    rw [dictGet_append_absent db _ k hc]
    simp [dictGet]

theorem dictGet_dictDelete_self (db : Store) (k : UUID) :
    dictGet (dictDelete db k) k = none := by
  induction db with
  | nil => rfl
  | cons e rest ih =>
    by_cases he : e.1 = k
    · have h1 : dictDelete (e :: rest) k = dictDelete rest k := by
        simp [dictDelete, List.filter_cons, he]
      rw [h1]
      exact ih
    · have hne : (e.1 == k) = false := by
        simp only [beq_eq_false_iff_ne]
        exact he
      have h1 : dictDelete (e :: rest) k = e :: dictDelete rest k := by
        simp [dictDelete, List.filter_cons, hne]
      rw [h1]
      simp only [dictGet, hne, Bool.false_eq_true, if_false]
      exact ih

theorem dictGet_dictDelete_other (db : Store) (x y : UUID) (hxy : y ≠ x) :
    dictGet (dictDelete db x) y = dictGet db y := by
  induction db with
  | nil => rfl
  | cons e rest ih =>
    by_cases he : e.1 = x
    · have h1 : dictDelete (e :: rest) x = dictDelete rest x := by
        simp [dictDelete, List.filter_cons, he]
      have hey : (e.1 == y) = false := by
        rw [he]
        simp only [beq_eq_false_iff_ne]
        exact fun hc => hxy hc.symm
      rw [h1, ih]
      simp [dictGet, hey]
    · have h1 : dictDelete (e :: rest) x = e :: dictDelete rest x := by
        simp [dictDelete, List.filter_cons, he]
      rw [h1]
      by_cases hey : e.1 = y
      · simp [dictGet, hey]
      · have heyb : (e.1 == y) = false := by
          simp only [beq_eq_false_iff_ne]
          exact hey
        simp only [dictGet, heyb, Bool.false_eq_true, if_false]
        exact ih

theorem dictContains_iff (db : Store) (k : UUID) :
    dictContains db k = true ↔ k ∈ db.map Prod.fst := by
  induction db with
  | nil => simp [dictContains]
  | cons e rest ih =>
    simp only [dictContains, Bool.or_eq_true, ih, List.map_cons, List.mem_cons,
      beq_iff_eq]
    constructor
    · rintro (h | h)
      · exact Or.inl h.symm
      · exact Or.inr h
    · rintro (h | h)
      · exact Or.inl h.symm
      · exact Or.inr h

theorem keys_dictSet_present (db : Store) (k : UUID) (w : ProductoOut)
    (h : dictContains db k = true) :
    (dictSet db k w).map Prod.fst = db.map Prod.fst := by
  unfold dictSet
  rw [h, if_pos rfl, List.map_map]
  apply List.map_congr_left
  intro e he
  by_cases hek : e.1 = k
  · simp [Function.comp, hek]
  · simp [Function.comp, hek]

theorem keys_dictSet_absent (db : Store) (k : UUID) (w : ProductoOut)
    (h : dictContains db k = false) :
    (dictSet db k w).map Prod.fst = db.map Prod.fst ++ [k] := by
  unfold dictSet
  rw [h, if_neg (by simp)]
  simp

theorem nodupKeys_dictSet (db : Store) (k : UUID) (w : ProductoOut)
    (h : nodupKeys db) : nodupKeys (dictSet db k w) := by
  cases hc : dictContains db k with
  | true =>
    unfold nodupKeys
    rw [keys_dictSet_present db k w hc]
    exact h
  | false =>
    unfold nodupKeys
    rw [keys_dictSet_absent db k w hc]
    have hk : k ∉ db.map Prod.fst := by
      intro hm
      rw [(dictContains_iff db k).mpr hm] at hc
      exact Bool.noConfusion hc
    simp [List.nodup_append, h, hk]

theorem runInserts_ids (ops : List (UUID × ProductoIn)) (db : Store) :
    (runInserts ops db).1.map ProductoOut.id = ops.map Prod.fst := by
  induction ops generalizing db with
  | nil => rfl
  | cons op rest ih =>
    obtain ⟨u, p⟩ := op
    simp [runInserts, crear_producto, ih]

theorem runInserts_nodupKeys (ops : List (UUID × ProductoIn)) (db : Store)
    (h : nodupKeys db) : nodupKeys (runInserts ops db).2 := by
  induction ops generalizing db with
  | nil => exact h
  | cons op rest ih =>
    obtain ⟨u, p⟩ := op
    simp only [runInserts]
    exact ih _ (nodupKeys_dictSet db u _ h)

/-- Claim C7 (confirmed): immediately fetching the id returned by an insert
succeeds and returns exactly the inserted value, for every validated product,
every store state and every generated id. -/
theorem C7_get_tras_insert (u : UUID) (p : ProductoIn) (db : Store) :
    obtener_producto (crear_producto u p db).1.id (crear_producto u p db).2 =
      .ok (crear_producto u p db).1 := by
  simp [crear_producto, obtener_producto, dictGet_dictSet_self]

/-- Claim C8 (confirmed): along any sequence of inserts the returned ids are
exactly the generated uuid4 values, so they are pairwise distinct whenever the
uuid4 draws are (the cryptographically-negligible-collision assumption the
spec makes); and the store, being keyed by id, never holds two entries with
the same id, each insert preserving that invariant. -/
theorem C8_ids_distintos (ops : List (UUID × ProductoIn)) (db : Store) :
    ((runInserts ops db).1.map ProductoOut.id = ops.map Prod.fst) ∧
    ((ops.map Prod.fst).Nodup →
      ((runInserts ops db).1.map ProductoOut.id).Nodup) ∧
    (nodupKeys db → nodupKeys (runInserts ops db).2) ∧
    (∀ (u : UUID) (q : ProductoIn) (db2 : Store), nodupKeys db2 →
      nodupKeys (crear_producto u q db2).2) := by
  refine ⟨runInserts_ids ops db, ?_, runInserts_nodupKeys ops db, ?_⟩
  · intro h
    rw [runInserts_ids ops db]
    exact h
  · intro u q db2 h2
    exact nodupKeys_dictSet db2 u _ h2

/-- Witness for C8: two inserts with distinct generated ids return distinct
ids and leave the store with distinct keys. -/
theorem C8_witness :
    ((runInserts [(1, ⟨"Pan casero", ⟨350, 2⟩, ["granos"]⟩),
        (2, ⟨"Leche entera", ⟨1200, 2⟩, ["lacteos"]⟩)] []).1.map
      ProductoOut.id).Nodup ∧
    nodupKeys (runInserts [(1, ⟨"Pan casero", ⟨350, 2⟩, ["granos"]⟩),
        (2, ⟨"Leche entera", ⟨1200, 2⟩, ["lacteos"]⟩)] []).2 := by
  constructor
  · exact (C8_ids_distintos _ _).2.1 (by decide)
  · exact (C8_ids_distintos _ _).2.2.1 (by decide)

/-- Claim C9 (confirmed): for an id absent from the store, get, replace and
delete all fail with the 404 not-found error and leave the store unchanged; a
delete of a present id succeeds and removes exactly that entry; and after a
delete of x, a get of x always fails with not-found. -/
theorem C9_ciclo_not_found (x : UUID) (q : ProductoIn) (db : Store) :
    (dictContains db x = false →
      obtener_producto x db = .error .notFound ∧
      (actualizar_producto x q db).1 = .error .notFound ∧
      (actualizar_producto x q db).2 = db ∧
      (eliminar_producto x db).1 = .error .notFound ∧
      (eliminar_producto x db).2 = db) ∧
    (dictContains db x = true →
      (eliminar_producto x db).1 = .ok () ∧
      dictGet (eliminar_producto x db).2 x = none ∧
      ∀ y : UUID, y ≠ x →
        dictGet (eliminar_producto x db).2 y = dictGet db y) ∧
    obtener_producto x (eliminar_producto x db).2 = .error .notFound := by
  refine ⟨?_, ?_, ?_⟩
  · intro h
    have hget := dictGet_none_of_not_contains db x h
    refine ⟨?_, ?_, ?_, ?_, ?_⟩
    · unfold obtener_producto
      rw [hget]
    · unfold actualizar_producto
      rw [h, if_neg (by simp)]
    · unfold actualizar_producto
      rw [h, if_neg (by simp)]
    · unfold eliminar_producto
      rw [h, if_neg (by simp)]
    · unfold eliminar_producto
      rw [h, if_neg (by simp)]
  · intro h
    refine ⟨?_, ?_, ?_⟩
    · unfold eliminar_producto
      rw [h, if_pos rfl]
    · unfold eliminar_producto
      rw [h, if_pos rfl]
      exact dictGet_dictDelete_self db x
    · intro y hy
      unfold eliminar_producto
      rw [h, if_pos rfl]
      exact dictGet_dictDelete_other db x y hy
  · cases h : dictContains db x with
    | true =>
      unfold obtener_producto eliminar_producto
      rw [h, if_pos rfl, dictGet_dictDelete_self]
    | false =>
      unfold obtener_producto eliminar_producto
      rw [h, if_neg (by simp), dictGet_none_of_not_contains db x h]

/-- Witness for C9: with one stored product under id 1, a get of the absent
id 2 fails with not-found, and a delete of the present id 1 succeeds. -/
theorem C9_witness :
    obtener_producto 2 [(1, ⟨1, "Pan casero", ⟨350, 2⟩, ["granos"]⟩)] =
      .error .notFound ∧
    (eliminar_producto 1 [(1, ⟨1, "Pan casero", ⟨350, 2⟩, ["granos"]⟩)]).1 =
      .ok () := by
  constructor
  · exact ((C9_ciclo_not_found 2 ⟨"Pan casero", ⟨350, 2⟩, ["granos"]⟩
      [(1, ⟨1, "Pan casero", ⟨350, 2⟩, ["granos"]⟩)]).1 (by decide)).1
  · exact ((C9_ciclo_not_found 1 ⟨"Pan casero", ⟨350, 2⟩, ["granos"]⟩
      [(1, ⟨1, "Pan casero", ⟨350, 2⟩, ["granos"]⟩)]).2.1 (by decide)).1

/-- Claim C10 (confirmed): when the request body of a create or update fails
validation, the store is left entirely unchanged, because FastAPI validates
the body before the handler body (the only code that mutates DB) runs. -/
theorem C10_validacion_no_muta (u k : UUID) (raw : RawProducto) (db : Store)
    (e : ValErr) (h : validate raw = .error e) :
    (postProductos u raw db).2 = db ∧ (putProductos k raw db).2 = db := by
  constructor
  · unfold postProductos
    rw [h]
  · unfold putProductos
    rw [h]

/-- Witness for C10: a body whose name is too short mutates nothing on either
endpoint. -/
theorem C10_witness :
    (postProductos 7 ⟨"ab", ⟨100, 2⟩, ["granos"]⟩ []).2 = ([] : Store) ∧
    (putProductos 7 ⟨"ab", ⟨100, 2⟩, ["granos"]⟩ []).2 = ([] : Store) :=
  C10_validacion_no_muta 7 7 ⟨"ab", ⟨100, 2⟩, ["granos"]⟩ [] .nombreCorto
    (by decide)

end ProductosAPI
